import Mathlib

/-!
Shallow embedding of `src/geometry-from-silhouette.py` (function
`generate_mesh`, lines 71-133).  Python floats are modelled as real
numbers, Python `int` arithmetic on face indices as `ℤ`, and the
sequence of `assert` statements at the top of `generate_mesh` as an
`Except` value that is an error exactly when some assert fails.
The texture raster is modelled by its shape (rows, columns, channels):
the pixel contents are produced by the external `cv2.drawContours`
fill, which no claim refers to.
-/

namespace SilhouetteMesh

/-- Python line 104: `v_segments = len(silhouette)`. -/
def v_segments (s : List ℝ) : ℕ := s.length

/-- Python built-in `max(silhouette)` (lines 111-112).  Folding `max`
with base `0` agrees with the maximum of the nonempty list whenever all
samples are nonnegative, which `generate_mesh` asserts (line 103)
before this value is used. -/
noncomputable def maxSil (s : List ℝ) : ℝ := s.foldr max 0

/-- Python line 108: `v_square = (1/v_segments)**2`. -/
noncomputable def v_square (s : List ℝ) : ℝ := (1 / (v_segments s : ℝ)) ^ 2

/-- One entry of `np.sqrt(np.diff(silhouette)**2 + v_square)` (line 109):
the step length between samples `t` and `t+1`. -/
noncomputable def stepLen (s : List ℝ) (t : ℕ) : ℝ :=
  Real.sqrt ((s.getD (t + 1) 0 - s.getD t 0) ^ 2 + v_square s)

/-- Entry `i` of `cumsums = np.concatenate(([0], np.cumsum(...)))`
(line 109): the sum of the first `i` step lengths (so entry 0 is 0 and
the last entry, index `v_segments - 1`, is the total length). -/
noncomputable def cumsums (s : List ℝ) (i : ℕ) : ℝ :=
  ∑ t ∈ Finset.range i, stepLen s t

/-- Python line 110: `offsets_v = cumsums/cumsums[-1]`. -/
noncomputable def offsets_v (s : List ℝ) (i : ℕ) : ℝ :=
  cumsums s i / cumsums s (v_segments s - 1)

/-- The texture width `int(np.pi*texture_height*max(silhouette))` from
line 111.  The Python `int(...)` truncates towards zero; the argument is
nonnegative (`maxSil` is a fold of `max` with base 0), so truncation is
the floor. -/
noncomputable def tex_width (s : List ℝ) (texture_height : ℕ) : ℤ :=
  ⌊Real.pi * texture_height * maxSil s⌋

/-- Python line 112: `u_max = .5*silhouette/max(silhouette) + .5`. -/
noncomputable def u_max (s : List ℝ) (i : ℕ) : ℝ :=
  0.5 * s.getD i 0 / maxSil s + 0.5

/-- Python line 113: `u_min = 1 - u_max`. -/
noncomputable def u_min (s : List ℝ) (i : ℕ) : ℝ := 1 - u_max s i

/-- The vertex appended at radial index `j`, height index `i`
(line 127), with `angle = 2*pi/r_segments*j` from line 124. -/
noncomputable def vertex (s : List ℝ) (r_segments j i : ℕ) : ℝ × ℝ × ℝ :=
  (Real.cos (2 * Real.pi / r_segments * j) * s.getD i 0,
   Real.sin (2 * Real.pi / r_segments * j) * s.getD i 0,
   2 * i / ((v_segments s : ℝ) - 1) - 1)

/-- The UV pair appended at radial index `j`, height index `i`
(lines 128-129): `u = (u_max[i]-u_min[i])/r_segments*j + u_min[i]`,
`v = offsets_v[i]`. -/
noncomputable def uvPoint (s : List ℝ) (r_segments j i : ℕ) : ℝ × ℝ :=
  ((u_max s i - u_min s i) / r_segments * j + u_min s i, offsets_v s i)

/-- The vertex list built by the double loop of lines 123-127:
`j` ranges over `0..r_segments`, `i` over `0..v_segments-1`. -/
noncomputable def vertices (s : List ℝ) (r_segments : ℕ) : List (ℝ × ℝ × ℝ) :=
  (List.range (r_segments + 1)).flatMap fun j =>
    (List.range (v_segments s)).map fun i => vertex s r_segments j i

/-- The UV list built by the same double loop (lines 123-129). -/
noncomputable def uvs (s : List ℝ) (r_segments : ℕ) : List (ℝ × ℝ) :=
  (List.range (r_segments + 1)).flatMap fun j =>
    (List.range (v_segments s)).map fun i => uvPoint s r_segments j i

/-- The faces appended at loop position `(j, i)` (lines 130-132).  At
that point `curr_v_idx = len(vertices) = j*v + i`; two triangles are
appended when `j > 0` and `i > 0`, none otherwise.  Index arithmetic is
over `ℤ`, as in Python. -/
def facesAt (v j i : ℕ) : List (List ℤ) :=
  if 0 < j ∧ 0 < i then
    [[(j * v + i : ℤ) - v - 1, (j * v + i : ℤ) - 1, (j * v + i : ℤ)],
     [(j * v + i : ℤ), (j * v + i : ℤ) - v, (j * v + i : ℤ) - v - 1]]
  else []

/-- The face list built by the double loop (lines 123-132). -/
def faces (r_segments v : ℕ) : List (List ℤ) :=
  (List.range (r_segments + 1)).flatMap fun j =>
    (List.range v).flatMap fun i => facesAt v j i

/-- Everything `generate_mesh` returns (line 133): vertices, UVs, faces
and the texture raster, the latter modelled by its shape
(rows, columns, channels). -/
structure MeshData where
  vertices : List (ℝ × ℝ × ℝ)
  uvs : List (ℝ × ℝ)
  faces : List (List ℤ)
  texture : ℕ × ℕ × ℕ

/-- The error kind raised when one of the input asserts
(lines 103-106) fails. -/
inductive MeshError where
  | InvalidArgument
deriving DecidableEq

open Classical in
/-- Python `generate_mesh` (lines 71-133).  The asserts of
lines 103-106 (`0 <= silhouette <= 1` pointwise, `r_segments >= 3`,
`v_segments >= 2`) run before anything is built; if any of them fails
the whole call fails and nothing is returned.  Otherwise the texture
buffer shape is `(texture_height, int(pi*texture_height*max(s)), 3)`
(line 111) and the vertex/UV/face lists are produced by the loop of
lines 123-132. -/
noncomputable def generate_mesh (s : List ℝ) (r_segments texture_height : ℕ) :
    Except MeshError MeshData :=
  if (∀ x ∈ s, 0 ≤ x ∧ x ≤ 1) ∧ 3 ≤ r_segments ∧ 2 ≤ v_segments s then
    Except.ok
      ⟨vertices s r_segments, uvs s r_segments,
       faces r_segments (v_segments s),
       (texture_height, (tex_width s texture_height).toNat, 3)⟩
  else
    Except.error MeshError.InvalidArgument

/-! Helper lemmas about the embedded definitions. -/

lemma length_flatMap_range_map {α : Type*} (f : ℕ → ℕ → α) (n v : ℕ) :
    ((List.range n).flatMap fun j => (List.range v).map (f j)).length = n * v := by
  simp [List.length_flatMap, Function.comp_def, List.map_const', List.sum_replicate, smul_eq_mul]

lemma getD_flatMap_range_map {α : Type*} (f : ℕ → ℕ → α) (d : α) {n v j i : ℕ}
    (hj : j < n) (hi : i < v) :
    ((List.range n).flatMap fun j => (List.range v).map (f j)).getD (j * v + i) d = f j i := by
  induction n with
  | zero => omega
  | succ m ih =>
    rw [List.range_succ, List.flatMap_append _ _ _]
    rcases Nat.lt_or_ge j m with hlt | hge
    · rw [List.getD_append]
      · exact ih hlt
      · rw [length_flatMap_range_map]
        calc j * v + i < j * v + v := by omega
          _ = (j + 1) * v := by ring
          _ ≤ m * v := Nat.mul_le_mul_right v hlt
    · have hj' : j = m := by omega
      subst hj'
      have hlen : ((List.range j).flatMap fun a => (List.range v).map (f a)).length = j * v :=
        length_flatMap_range_map f j v
      rw [List.getD_append_right]
      · rw [hlen]
        have hidx : j * v + i - j * v = i := by omega
        rw [hidx]
        simp [List.getD_eq_getElem?_getD, List.getElem?_map, List.getElem?_range hi]
      · rw [hlen]; omega

lemma vertices_length (s : List ℝ) (r : ℕ) : (vertices s r).length = (r + 1) * v_segments s :=
  length_flatMap_range_map _ _ _

lemma uvs_length (s : List ℝ) (r : ℕ) : (uvs s r).length = (r + 1) * v_segments s :=
  length_flatMap_range_map _ _ _

lemma vertices_getD (s : List ℝ) (r : ℕ) {j i : ℕ} (hj : j ≤ r) (hi : i < v_segments s) :
    (vertices s r).getD (j * v_segments s + i) (0, 0, 0) = vertex s r j i :=
  getD_flatMap_range_map _ _ (by omega) hi

lemma uvs_getD (s : List ℝ) (r : ℕ) {j i : ℕ} (hj : j ≤ r) (hi : i < v_segments s) :
    (uvs s r).getD (j * v_segments s + i) (0, 0) = uvPoint s r j i :=
  getD_flatMap_range_map _ _ (by omega) hi

lemma length_facesRow (v j m : ℕ) :
    ((List.range m).flatMap fun i => facesAt v j i).length = if 0 < j then 2 * (m - 1) else 0 := by
  induction m with
  | zero => simp
  | succ n ih =>
    rw [List.range_succ, List.flatMap_append _ _ _, List.length_append, ih]
    simp only [List.flatMap_cons, List.flatMap_nil, List.append_nil]
    unfold facesAt
    split_ifs <;>
      simp only [List.length_cons, List.length_nil] <;> omega

lemma length_faces (r v : ℕ) : (faces r v).length = 2 * r * (v - 1) := by
  unfold faces
  induction r with
  | zero =>
    rw [show List.range 1 = [0] by rfl]
    simp only [List.flatMap_cons, List.flatMap_nil, List.append_nil]
    rw [length_facesRow]
    simp
  | succ m ih =>
    rw [List.range_succ, List.flatMap_append _ _ _, List.length_append, ih]
    simp only [List.flatMap_cons, List.flatMap_nil, List.append_nil]
    rw [length_facesRow, if_pos (by omega : 0 < m + 1)]
    ring

lemma mem_faces_iff {r v : ℕ} {x : List ℤ} :
    x ∈ faces r v ↔ ∃ j i, 1 ≤ j ∧ j ≤ r ∧ 1 ≤ i ∧ i < v ∧
      (x = [(j * v + i : ℤ) - v - 1, (j * v + i : ℤ) - 1, (j * v + i : ℤ)] ∨
       x = [(j * v + i : ℤ), (j * v + i : ℤ) - v, (j * v + i : ℤ) - v - 1]) := by
  unfold faces
  simp only [List.mem_flatMap, List.mem_range]
  constructor
  · rintro ⟨j, hj, i, hi, hx⟩
    unfold facesAt at hx
    split_ifs at hx with hcond
    · obtain ⟨h0j, h0i⟩ := hcond
      refine ⟨j, i, h0j, by omega, h0i, hi, ?_⟩
      simpa using hx
    · simp at hx
  · rintro ⟨j, i, h1, h2, h3, h4, hx⟩
    refine ⟨j, by omega, i, h4, ?_⟩
    unfold facesAt
    rw [if_pos (And.intro (by omega) (by omega))]
    rcases hx with h | h <;> simp [h]

lemma maxSil_nonneg (s : List ℝ) : 0 ≤ maxSil s := by
  induction s with
  | nil => simp [maxSil]
  | cons a t ih =>
    simp only [maxSil, List.foldr_cons] at *
    exact le_trans ih (le_max_right a _)

lemma le_maxSil {s : List ℝ} {x : ℝ} (hx : x ∈ s) : x ≤ maxSil s := by
  induction s with
  | nil => cases hx
  | cons a t ih =>
    simp only [maxSil, List.foldr_cons] at *
    rcases List.mem_cons.mp hx with h | h
    · subst h; exact le_max_left _ _
    · exact le_trans (ih h) (le_max_right _ _)

lemma stepLen_nonneg (s : List ℝ) (t : ℕ) : 0 ≤ stepLen s t := Real.sqrt_nonneg _

lemma stepLen_pos {s : List ℝ} (hv : 1 ≤ s.length) (t : ℕ) : 0 < stepLen s t := by
  unfold stepLen
  apply Real.sqrt_pos.mpr
  have hlen : (0 : ℝ) < (s.length : ℝ) := by exact_mod_cast hv
  have h1 : (0 : ℝ) < v_square s := by
    unfold v_square v_segments
    positivity
  nlinarith [sq_nonneg (s.getD (t + 1) 0 - s.getD t 0)]

lemma cumsums_mono (s : List ℝ) {i k : ℕ} (h : i ≤ k) : cumsums s i ≤ cumsums s k := by
  unfold cumsums
  exact Finset.sum_le_sum_of_subset_of_nonneg (Finset.range_subset.mpr h)
    (fun t _ _ => stepLen_nonneg s t)

lemma cumsums_total_pos {s : List ℝ} (hv : 2 ≤ s.length) :
    0 < cumsums s (v_segments s - 1) := by
  unfold cumsums
  apply Finset.sum_pos (fun t _ => stepLen_pos (by omega) t)
  rw [Finset.nonempty_range_iff]
  unfold v_segments
  omega

lemma offsets_v_zero (s : List ℝ) : offsets_v s 0 = 0 := by
  unfold offsets_v cumsums
  simp

lemma offsets_v_last {s : List ℝ} (hv : 2 ≤ s.length) :
    offsets_v s (s.length - 1) = 1 := by
  have h := cumsums_total_pos hv
  unfold v_segments at h
  unfold offsets_v v_segments
  rw [div_self (ne_of_gt h)]

lemma offsets_v_mono {s : List ℝ} (hv : 2 ≤ s.length) {i k : ℕ} (h : i ≤ k) :
    offsets_v s i ≤ offsets_v s k := by
  unfold offsets_v
  exact (div_le_div_iff_of_pos_right (cumsums_total_pos hv)).mpr (cumsums_mono s h)

lemma generate_mesh_ok {s : List ℝ} {r : ℕ} (h : ℕ)
    (h01 : ∀ x ∈ s, 0 ≤ x ∧ x ≤ 1) (hr : 3 ≤ r) (hv : 2 ≤ s.length) :
    generate_mesh s r h = Except.ok
      ⟨vertices s r, uvs s r, faces r (v_segments s),
       (h, (tex_width s h).toNat, 3)⟩ := by
  have hc : (∀ x ∈ s, 0 ≤ x ∧ x ≤ 1) ∧ 3 ≤ r ∧ 2 ≤ v_segments s := ⟨h01, hr, hv⟩
  unfold generate_mesh
  rw [if_pos hc]

/-! Claim theorems. -/

/-- C2: for every silhouette with all values in [0,1], `r_segments >= 3` and
`v_segments = len(silhouette) >= 2`, `generate_mesh` returns a vertex list and
a UV list whose lengths are both exactly `(r_segments + 1) * v_segments`. -/
theorem generate_mesh_counts (s : List ℝ) (r h : ℕ)
    (h01 : ∀ x ∈ s, 0 ≤ x ∧ x ≤ 1) (hr : 3 ≤ r) (hv : 2 ≤ s.length) :
    ∃ d, generate_mesh s r h = Except.ok d ∧
      d.vertices.length = (r + 1) * s.length ∧ d.uvs.length = (r + 1) * s.length :=
  ⟨_, generate_mesh_ok h h01 hr hv, vertices_length s r, uvs_length s r⟩

/-- Witness for C2 at the concrete input `silhouette = [0, 1]`,
`r_segments = 3`, `texture_height = 10`. -/
theorem generate_mesh_counts_witness :
    ∃ d, generate_mesh [(0 : ℝ), 1] 3 10 = Except.ok d ∧
      d.vertices.length = (3 + 1) * 2 ∧ d.uvs.length = (3 + 1) * 2 :=
  generate_mesh_counts [(0 : ℝ), 1] 3 10 (by norm_num) (by norm_num) (by norm_num)

/-- C4: for every silhouette with at least 2 samples, the arc-length V-offset
array computed from per-step lengths `sqrt((delta radius)^2 + (1/v_segments)^2)`
is non-decreasing in the sample index, with `offset[0] = 0` and
`offset[last] = 1`. -/
theorem offsets_v_monotone_zero_one (s : List ℝ) (hv : 2 ≤ s.length) :
    offsets_v s 0 = 0 ∧ offsets_v s (s.length - 1) = 1 ∧
    ∀ i k : ℕ, i ≤ k → offsets_v s i ≤ offsets_v s k :=
  ⟨offsets_v_zero s, offsets_v_last hv, fun _ _ hik => offsets_v_mono hv hik⟩

/-- Witness for C4 at the concrete input `silhouette = [0, 1]`. -/
theorem offsets_v_monotone_zero_one_witness :
    offsets_v [(0 : ℝ), 1] 0 = 0 ∧ offsets_v [(0 : ℝ), 1] (([(0 : ℝ), 1] : List ℝ).length - 1) = 1 ∧
    ∀ i k : ℕ, i ≤ k → offsets_v [(0 : ℝ), 1] i ≤ offsets_v [(0 : ℝ), 1] k :=
  offsets_v_monotone_zero_one [(0 : ℝ), 1] (by norm_num)

/-- C6: if any silhouette value lies outside [0,1], or `r_segments < 3`, or the
number of samples is below 2, then `generate_mesh` fails with `InvalidArgument`
and returns no partially-built data (the result is the bare error value). -/
theorem invalid_inputs_error (s : List ℝ) (r h : ℕ)
    (hbad : (∃ x ∈ s, x < 0 ∨ 1 < x) ∨ r < 3 ∨ s.length < 2) :
    generate_mesh s r h = Except.error MeshError.InvalidArgument := by
  unfold generate_mesh
  rw [if_neg]
  rintro ⟨h01, hr, hv⟩
  rcases hbad with ⟨x, hx, hlt | hgt⟩ | hr' | hv'
  · exact absurd (h01 x hx).1 (not_le.mpr hlt)
  · exact absurd (h01 x hx).2 (not_le.mpr hgt)
  · omega
  · unfold v_segments at hv
    omega

/-- Witness for C6 at the concrete input `silhouette = [2]` (out of range, and
also too short), `r_segments = 5`, `texture_height = 10`. -/
theorem invalid_inputs_error_witness :
    generate_mesh [(2 : ℝ)] 5 10 = Except.error MeshError.InvalidArgument :=
  invalid_inputs_error [(2 : ℝ)] 5 10 (Or.inl ⟨2, by simp, Or.inr (by norm_num)⟩)

/-- C8: for every silhouette, the U envelope satisfies
`u_min[i] + u_max[i] = 1` for every sample index, with
`u_max[i] = 0.5 * silhouette[i] / max(silhouette) + 0.5`. -/
theorem u_envelope_symmetry (s : List ℝ) (hpos : 0 < maxSil s) :
    ∀ i : ℕ, u_min s i + u_max s i = 1 ∧
      u_max s i = 0.5 * s.getD i 0 / maxSil s + 0.5 := by
  intro i
  unfold u_min u_max
  exact ⟨by ring, rfl⟩

/-- Witness for C8 at the concrete input `silhouette = [1/2, 1]`. -/
theorem u_envelope_symmetry_witness :
    0 < maxSil [(1 : ℝ)/2, 1] ∧
    (u_min [(1 : ℝ)/2, 1] 0 + u_max [(1 : ℝ)/2, 1] 0 = 1 ∧
     u_max [(1 : ℝ)/2, 1] 0 = 0.5 * ([(1 : ℝ)/2, 1].getD 0 0) / maxSil [(1 : ℝ)/2, 1] + 0.5) := by
  have hpos : 0 < maxSil [(1 : ℝ)/2, 1] := by
    unfold maxSil
    simp only [List.foldr_cons, List.foldr_nil]
    norm_num
  exact ⟨hpos, u_envelope_symmetry [(1 : ℝ)/2, 1] hpos 0⟩

/-- C1: in arc-length mode, for each radial index `j` in `0..r_segments` and
each height index `i` in `0..v_segments-1`, the mesh builder emits the vertex
`(cos(2*pi*j/r)*silhouette[i], sin(2*pi*j/r)*silhouette[i], 2*i/(v-1) - 1)`
and the UV coordinate `(u_min[i] + (u_max[i] - u_min[i]) * j / r, offsets_v[i])`
at list position `j * v_segments + i`. -/
theorem generate_mesh_emits (s : List ℝ) (r h : ℕ)
    (h01 : ∀ x ∈ s, 0 ≤ x ∧ x ≤ 1) (hr : 3 ≤ r) (hv : 2 ≤ s.length) :
    ∃ d, generate_mesh s r h = Except.ok d ∧
      ∀ j ≤ r, ∀ i < s.length,
        d.vertices.getD (j * s.length + i) (0, 0, 0) =
          (Real.cos (2 * Real.pi * j / r) * s.getD i 0,
           Real.sin (2 * Real.pi * j / r) * s.getD i 0,
           2 * i / ((s.length : ℝ) - 1) - 1) ∧
        d.uvs.getD (j * s.length + i) (0, 0) =
          (u_min s i + (u_max s i - u_min s i) * j / r, offsets_v s i) := by
  refine ⟨_, generate_mesh_ok h h01 hr hv, ?_⟩
  intro j hj i hi
  constructor
  · show (vertices s r).getD (j * v_segments s + i) (0, 0, 0) = _
    rw [vertices_getD s r hj hi]
    unfold vertex
    have harg : 2 * Real.pi / (r : ℝ) * (j : ℝ) = 2 * Real.pi * (j : ℝ) / (r : ℝ) := by ring
    rw [harg]
    rfl
  · show (uvs s r).getD (j * v_segments s + i) (0, 0) = _
    rw [uvs_getD s r hj hi]
    unfold uvPoint
    congr 1
    ring

/-- Witness for C1 at the concrete input `silhouette = [0, 1]`,
`r_segments = 3`, `texture_height = 10`. -/
theorem generate_mesh_emits_witness :
    ∃ d, generate_mesh [(0 : ℝ), 1] 3 10 = Except.ok d ∧
      ∀ j ≤ 3, ∀ i < ([(0 : ℝ), 1] : List ℝ).length,
        d.vertices.getD (j * ([(0 : ℝ), 1] : List ℝ).length + i) (0, 0, 0) =
          (Real.cos (2 * Real.pi * j / 3) * [(0 : ℝ), 1].getD i 0,
           Real.sin (2 * Real.pi * j / 3) * [(0 : ℝ), 1].getD i 0,
           2 * i / ((([(0 : ℝ), 1] : List ℝ).length : ℝ) - 1) - 1) ∧
        d.uvs.getD (j * ([(0 : ℝ), 1] : List ℝ).length + i) (0, 0) =
          (u_min [(0 : ℝ), 1] i + (u_max [(0 : ℝ), 1] i - u_min [(0 : ℝ), 1] i) * j / 3,
           offsets_v [(0 : ℝ), 1] i) :=
  generate_mesh_emits [(0 : ℝ), 1] 3 10 (by norm_num) (by norm_num) (by norm_num)

/-- C3: for every valid input, every index occurring in the faces list lies in
`[0, len(vertices))`; every face arises from a position with `j > 0` and
`i > 0` (so no face is emitted for the first ring `j = 0`) and is one of the
two triangles `[curr-v-1, curr-1, curr]`, `[curr, curr-v, curr-v-1]` with
`curr = j*v + i`; and conversely both triangles are present for every such
`(j, i)`. -/
theorem faces_in_range_and_shape (s : List ℝ) (r h : ℕ)
    (h01 : ∀ x ∈ s, 0 ≤ x ∧ x ≤ 1) (hr : 3 ≤ r) (hv : 2 ≤ s.length) :
    ∃ d, generate_mesh s r h = Except.ok d ∧
      (∀ f ∈ d.faces, ∀ x ∈ f, 0 ≤ x ∧ x < (d.vertices.length : ℤ)) ∧
      (∀ f ∈ d.faces, ∃ j i : ℕ, 1 ≤ j ∧ j ≤ r ∧ 1 ≤ i ∧ i < s.length ∧
        (f = [(j * s.length + i : ℤ) - s.length - 1, (j * s.length + i : ℤ) - 1,
              (j * s.length + i : ℤ)] ∨
         f = [(j * s.length + i : ℤ), (j * s.length + i : ℤ) - s.length,
              (j * s.length + i : ℤ) - s.length - 1])) ∧
      (∀ j i : ℕ, 1 ≤ j → j ≤ r → 1 ≤ i → i < s.length →
        [(j * s.length + i : ℤ) - s.length - 1, (j * s.length + i : ℤ) - 1,
         (j * s.length + i : ℤ)] ∈ d.faces ∧
        [(j * s.length + i : ℤ), (j * s.length + i : ℤ) - s.length,
         (j * s.length + i : ℤ) - s.length - 1] ∈ d.faces) := by
  refine ⟨_, generate_mesh_ok h h01 hr hv, ?_, ?_, ?_⟩
  · intro f hf x hx
    have hf' : f ∈ faces r (v_segments s) := hf
    rcases mem_faces_iff.mp hf' with ⟨j, i, hj1, hjr, hi1, hiv, hface | hface⟩ <;>
      subst hface <;>
      simp only [List.mem_cons, List.not_mem_nil, or_false] at hx <;>
      [skip; skip] <;>
      · have hlen : ((vertices s r).length : ℤ) = ((r : ℤ) + 1) * ((v_segments s : ℕ) : ℤ) := by
          rw [vertices_length]
          push_cast
          ring
        have hvZ : (2 : ℤ) ≤ ((v_segments s : ℕ) : ℤ) := by
          have : 2 ≤ v_segments s := hv
          exact_mod_cast this
        have hjZ : (1 : ℤ) ≤ (j : ℤ) := by exact_mod_cast hj1
        have hjrZ : (j : ℤ) ≤ (r : ℤ) := by exact_mod_cast hjr
        have hiZ : (1 : ℤ) ≤ (i : ℤ) := by exact_mod_cast hi1
        have hivZ : (i : ℤ) < ((v_segments s : ℕ) : ℤ) := by exact_mod_cast hiv
        have h1 : (((v_segments s : ℕ)) : ℤ) ≤ (j : ℤ) * ((v_segments s : ℕ) : ℤ) :=
          le_mul_of_one_le_left (by linarith) hjZ
        have h2 : (j : ℤ) * ((v_segments s : ℕ) : ℤ) ≤ (r : ℤ) * ((v_segments s : ℕ) : ℤ) :=
          mul_le_mul_of_nonneg_right hjrZ (by linarith)
        show 0 ≤ x ∧ x < ((vertices s r).length : ℤ)
        rw [hlen]
        rcases hx with hx | hx | hx <;> subst hx <;> constructor <;> linarith
  · intro f hf
    have hf' : f ∈ faces r (v_segments s) := hf
    exact mem_faces_iff.mp hf'
  · intro j i hj1 hjr hi1 hiv
    constructor
    · show _ ∈ faces r (v_segments s)
      exact mem_faces_iff.mpr ⟨j, i, hj1, hjr, hi1, hiv, Or.inl rfl⟩
    · show _ ∈ faces r (v_segments s)
      exact mem_faces_iff.mpr ⟨j, i, hj1, hjr, hi1, hiv, Or.inr rfl⟩

/-- Witness for C3 at the concrete input `silhouette = [0, 1]`,
`r_segments = 3`, `texture_height = 10`. -/
theorem faces_in_range_and_shape_witness :
    ∃ d, generate_mesh [(0 : ℝ), 1] 3 10 = Except.ok d ∧
      (∀ f ∈ d.faces, ∀ x ∈ f, 0 ≤ x ∧ x < (d.vertices.length : ℤ)) ∧
      (∀ f ∈ d.faces, ∃ j i : ℕ, 1 ≤ j ∧ j ≤ 3 ∧ 1 ≤ i ∧ i < ([(0 : ℝ), 1] : List ℝ).length ∧
        (f = [(j * ([(0 : ℝ), 1] : List ℝ).length + i : ℤ) - ([(0 : ℝ), 1] : List ℝ).length - 1,
              (j * ([(0 : ℝ), 1] : List ℝ).length + i : ℤ) - 1,
              (j * ([(0 : ℝ), 1] : List ℝ).length + i : ℤ)] ∨
         f = [(j * ([(0 : ℝ), 1] : List ℝ).length + i : ℤ),
              (j * ([(0 : ℝ), 1] : List ℝ).length + i : ℤ) - ([(0 : ℝ), 1] : List ℝ).length,
              (j * ([(0 : ℝ), 1] : List ℝ).length + i : ℤ) - ([(0 : ℝ), 1] : List ℝ).length - 1])) ∧
      (∀ j i : ℕ, 1 ≤ j → j ≤ 3 → 1 ≤ i → i < ([(0 : ℝ), 1] : List ℝ).length →
        [(j * ([(0 : ℝ), 1] : List ℝ).length + i : ℤ) - ([(0 : ℝ), 1] : List ℝ).length - 1,
         (j * ([(0 : ℝ), 1] : List ℝ).length + i : ℤ) - 1,
         (j * ([(0 : ℝ), 1] : List ℝ).length + i : ℤ)] ∈ d.faces ∧
        [(j * ([(0 : ℝ), 1] : List ℝ).length + i : ℤ),
         (j * ([(0 : ℝ), 1] : List ℝ).length + i : ℤ) - ([(0 : ℝ), 1] : List ℝ).length,
         (j * ([(0 : ℝ), 1] : List ℝ).length + i : ℤ) - ([(0 : ℝ), 1] : List ℝ).length - 1]
          ∈ d.faces) :=
  faces_in_range_and_shape [(0 : ℝ), 1] 3 10 (by norm_num) (by norm_num) (by norm_num)

/-- C10: for every valid input, the faces list contains exactly
`2 * r_segments * (v_segments - 1)` triangles, and the three vertex indices of
each triangle are pairwise distinct. -/
theorem face_count_and_distinct (s : List ℝ) (r h : ℕ)
    (h01 : ∀ x ∈ s, 0 ≤ x ∧ x ≤ 1) (hr : 3 ≤ r) (hv : 2 ≤ s.length) :
    ∃ d, generate_mesh s r h = Except.ok d ∧
      d.faces.length = 2 * r * (s.length - 1) ∧
      ∀ f ∈ d.faces, ∃ a b c : ℤ, f = [a, b, c] ∧ a ≠ b ∧ a ≠ c ∧ b ≠ c := by
  refine ⟨_, generate_mesh_ok h h01 hr hv, length_faces r (v_segments s), ?_⟩
  intro f hf
  have hf' : f ∈ faces r (v_segments s) := hf
  have hvZ : (2 : ℤ) ≤ (s.length : ℤ) := by exact_mod_cast hv
  rcases mem_faces_iff.mp hf' with ⟨j, i, hj1, hjr, hi1, hiv, hface | hface⟩ <;>
    subst hface <;>
    refine ⟨_, _, _, rfl, ?_, ?_, ?_⟩ <;> intro hEq <;>
    · have hvseg : ((v_segments s : ℕ) : ℤ) = (s.length : ℤ) := rfl
      rw [hvseg] at hEq
      linarith

/-- Witness for C10 at the concrete input `silhouette = [0, 1]`,
`r_segments = 3`, `texture_height = 10`. -/
theorem face_count_and_distinct_witness :
    ∃ d, generate_mesh [(0 : ℝ), 1] 3 10 = Except.ok d ∧
      d.faces.length = 2 * 3 * (([(0 : ℝ), 1] : List ℝ).length - 1) ∧
      ∀ f ∈ d.faces, ∃ a b c : ℤ, f = [a, b, c] ∧ a ≠ b ∧ a ≠ c ∧ b ≠ c :=
  face_count_and_distinct [(0 : ℝ), 1] 3 10 (by norm_num) (by norm_num) (by norm_num)

/-- C9: for every valid input with a texture requested, the texture raster has
exactly `texture_height` rows, `floor(pi * texture_height * max(silhouette))`
columns and 3 channels, and the width is monotonically non-decreasing in
`texture_height` and in `max(silhouette)`. -/
theorem texture_shape_and_monotone (s : List ℝ) (r h : ℕ)
    (h01 : ∀ x ∈ s, 0 ≤ x ∧ x ≤ 1) (hr : 3 ≤ r) (hv : 2 ≤ s.length) :
    ∃ d, generate_mesh s r h = Except.ok d ∧
      d.texture.1 = h ∧ ((d.texture.2.1 : ℤ) = ⌊Real.pi * h * maxSil s⌋) ∧
      d.texture.2.2 = 3 ∧
      (∀ h1 h2 : ℕ, h1 ≤ h2 → tex_width s h1 ≤ tex_width s h2) ∧
      (∀ s' : List ℝ, maxSil s ≤ maxSil s' → tex_width s h ≤ tex_width s' h) := by
  refine ⟨_, generate_mesh_ok h h01 hr hv, rfl, ?_, rfl, ?_, ?_⟩
  · show ((tex_width s h).toNat : ℤ) = _
    rw [Int.toNat_of_nonneg]
    · rfl
    · unfold tex_width
      apply Int.floor_nonneg.mpr
      have hm := maxSil_nonneg s
      positivity
  · intro h1 h2 hle
    unfold tex_width
    apply Int.floor_le_floor
    have hm := maxSil_nonneg s
    have hcast : (h1 : ℝ) ≤ (h2 : ℝ) := by exact_mod_cast hle
    exact mul_le_mul_of_nonneg_right
      (mul_le_mul_of_nonneg_left hcast (le_of_lt Real.pi_pos)) hm
  · intro s' hle
    unfold tex_width
    apply Int.floor_le_floor
    have hph : (0 : ℝ) ≤ Real.pi * h := by positivity
    exact mul_le_mul_of_nonneg_left hle hph

/-- Witness for C9 at the concrete input `silhouette = [0, 1]`,
`r_segments = 3`, `texture_height = 10`. -/
theorem texture_shape_and_monotone_witness :
    ∃ d, generate_mesh [(0 : ℝ), 1] 3 10 = Except.ok d ∧
      d.texture.1 = 10 ∧ ((d.texture.2.1 : ℤ) = ⌊Real.pi * (10 : ℕ) * maxSil [(0 : ℝ), 1]⌋) ∧
      d.texture.2.2 = 3 ∧
      (∀ h1 h2 : ℕ, h1 ≤ h2 → tex_width [(0 : ℝ), 1] h1 ≤ tex_width [(0 : ℝ), 1] h2) ∧
      (∀ s' : List ℝ, maxSil [(0 : ℝ), 1] ≤ maxSil s' →
        tex_width [(0 : ℝ), 1] 10 ≤ tex_width s' 10) :=
  texture_shape_and_monotone [(0 : ℝ), 1] 3 10 (by norm_num) (by norm_num) (by norm_num)

/-- C5 (counterexample): for the valid input `silhouette = [1/2, 1]`,
`r_segments = 3`, the UV coordinate emitted at `j = 0`, `i = 0` has
`u = u_min[0] = 1/4`, not `0` as the claim states. -/
theorem seam_uv_counterexample :
    generate_mesh [(1 : ℝ)/2, 1] 3 10 = Except.ok
      ⟨vertices [(1 : ℝ)/2, 1] 3, uvs [(1 : ℝ)/2, 1] 3,
       faces 3 (v_segments [(1 : ℝ)/2, 1]),
       (10, (tex_width [(1 : ℝ)/2, 1] 10).toNat, 3)⟩ ∧
    ((uvs [(1 : ℝ)/2, 1] 3).getD 0 (0, 0)).1 = 1/4 ∧ ((1 : ℝ)/4 ≠ 0) := by
  refine ⟨generate_mesh_ok 10 (by norm_num) (by norm_num) (by norm_num), ?_, by norm_num⟩
  have h0 := @uvs_getD [(1 : ℝ)/2, 1] 3 0 0 (by omega) (by norm_num [v_segments])
  rw [show 0 * v_segments [(1 : ℝ)/2, 1] + 0 = 0 from rfl] at h0
  rw [h0]
  unfold uvPoint u_min u_max maxSil
  norm_num

/-- C5 (amended): for every valid input and every height index `i`, the vertex
emitted at `j = 0` equals the vertex emitted at `j = r_segments`; the UV `u`
at `j = 0` is `u_min[i]` and at `j = r_segments` is `u_max[i]`, and the two
differ whenever `silhouette[i] > 0`. -/
theorem seam_closure_amended (s : List ℝ) (r h : ℕ)
    (h01 : ∀ x ∈ s, 0 ≤ x ∧ x ≤ 1) (hr : 3 ≤ r) (hv : 2 ≤ s.length) :
    ∃ d, generate_mesh s r h = Except.ok d ∧
      ∀ i < s.length,
        d.vertices.getD (r * s.length + i) (0, 0, 0) = d.vertices.getD i (0, 0, 0) ∧
        (d.uvs.getD i (0, 0)).1 = u_min s i ∧
        (d.uvs.getD (r * s.length + i) (0, 0)).1 = u_max s i ∧
        (0 < s.getD i 0 →
          (d.uvs.getD i (0, 0)).1 ≠ (d.uvs.getD (r * s.length + i) (0, 0)).1) := by
  refine ⟨_, generate_mesh_ok h h01 hr hv, ?_⟩
  intro i hi
  have hvi : i < v_segments s := hi
  have hr0 : (r : ℝ) ≠ 0 := Nat.cast_ne_zero.mpr (by omega)
  have hidx0 : 0 * v_segments s + i = i := by omega
  have hV0 : (vertices s r).getD i (0, 0, 0) = vertex s r 0 i := by
    have h0 := @vertices_getD s r 0 i (by omega) hvi
    rwa [hidx0] at h0
  have hVr : (vertices s r).getD (r * v_segments s + i) (0, 0, 0) = vertex s r r i :=
    vertices_getD s r (le_refl r) hvi
  have hU0 : (uvs s r).getD i (0, 0) = uvPoint s r 0 i := by
    have h0 := @uvs_getD s r 0 i (by omega) hvi
    rwa [hidx0] at h0
  have hUr : (uvs s r).getD (r * v_segments s + i) (0, 0) = uvPoint s r r i :=
    uvs_getD s r (le_refl r) hvi
  have hang : 2 * Real.pi / (r : ℝ) * ((r : ℕ) : ℝ) = 2 * Real.pi :=
    div_mul_cancel₀ _ hr0
  have hang0 : 2 * Real.pi / (r : ℝ) * ((0 : ℕ) : ℝ) = 0 := by norm_num
  have hu0 : (uvPoint s r 0 i).1 = u_min s i := by
    unfold uvPoint
    norm_num
  have hur : (uvPoint s r r i).1 = u_max s i := by
    unfold uvPoint
    show (u_max s i - u_min s i) / (r : ℝ) * ((r : ℕ) : ℝ) + u_min s i = u_max s i
    rw [div_mul_cancel₀ _ hr0]
    ring
  refine ⟨?_, ?_, ?_, ?_⟩
  · show (vertices s r).getD (r * v_segments s + i) (0, 0, 0) = (vertices s r).getD i (0, 0, 0)
    rw [hV0, hVr]
    unfold vertex
    rw [hang, hang0, Real.cos_two_pi, Real.cos_zero, Real.sin_two_pi, Real.sin_zero]
  · show ((uvs s r).getD i (0, 0)).1 = u_min s i
    rw [hU0, hu0]
  · show ((uvs s r).getD (r * v_segments s + i) (0, 0)).1 = u_max s i
    rw [hUr, hur]
  · intro hpos
    show ((uvs s r).getD i (0, 0)).1 ≠ ((uvs s r).getD (r * v_segments s + i) (0, 0)).1
    rw [hU0, hu0, hUr, hur]
    have hmem : s.getD i 0 ∈ s := by
      rw [List.getD_eq_getElem s 0 hi]
      exact List.getElem_mem hi
    have hmax : s.getD i 0 ≤ maxSil s := le_maxSil hmem
    have hmpos : 0 < maxSil s := lt_of_lt_of_le hpos hmax
    have hdiff : u_max s i - u_min s i = s.getD i 0 / maxSil s := by
      unfold u_min u_max
      ring
    have hlt : 0 < u_max s i - u_min s i := by
      rw [hdiff]
      positivity
    intro hEq
    rw [hEq] at hlt
    simp at hlt

/-- Witness for the amended C5 at the concrete input `silhouette = [1/2, 1]`,
`r_segments = 3`, `texture_height = 10`. -/
theorem seam_closure_amended_witness :
    ∃ d, generate_mesh [(1 : ℝ)/2, 1] 3 10 = Except.ok d ∧
      ∀ i < ([(1 : ℝ)/2, 1] : List ℝ).length,
        d.vertices.getD (3 * ([(1 : ℝ)/2, 1] : List ℝ).length + i) (0, 0, 0) =
          d.vertices.getD i (0, 0, 0) ∧
        (d.uvs.getD i (0, 0)).1 = u_min [(1 : ℝ)/2, 1] i ∧
        (d.uvs.getD (3 * ([(1 : ℝ)/2, 1] : List ℝ).length + i) (0, 0)).1 =
          u_max [(1 : ℝ)/2, 1] i ∧
        (0 < [(1 : ℝ)/2, 1].getD i 0 →
          (d.uvs.getD i (0, 0)).1 ≠
            (d.uvs.getD (3 * ([(1 : ℝ)/2, 1] : List ℝ).length + i) (0, 0)).1) :=
  seam_closure_amended [(1 : ℝ)/2, 1] 3 10 (by norm_num) (by norm_num) (by norm_num)

/-- C7: at the all-zero silhouette `[0, 0]` (with a texture requested) the
asserts of lines 103-106 all pass, so `generate_mesh` returns successfully,
even though `max(silhouette) = 0` and the U-envelope division
`0.5*silhouette/max(silhouette)` of line 112 runs with a zero denominator:
the code does not fail with `InvalidArgument` as the claim states. -/
theorem zero_silhouette_not_rejected :
    maxSil [(0 : ℝ), 0] = 0 ∧
    ∃ d, generate_mesh [(0 : ℝ), 0] 3 10 = Except.ok d := by
  constructor
  · unfold maxSil
    simp
  · exact ⟨_, generate_mesh_ok 10 (by norm_num) (by norm_num) (by norm_num)⟩

end SilhouetteMesh
